import Mathlib

/-!
Verification of the kubectl-free resource reporting tool (fork thirdeyenick/kubectl-free).

The development shallowly embeds the Go sources `pkg/cmd/free.go` (command options,
unit formatting, severity colouring, Run), `pkg/cmd/showpods.go` (container row
building, sorting, list rendering) and `pkg/table/table.go` (output table).

Conventions of the embedding:
* Kubernetes `resource.Quantity` values are modelled by their integer value
  (millicores for CPU quantities, bytes for memory quantities); `Quantity.Cmp`
  is integer comparison of those values.
* Functions of the repository package `pkg/util` and of external libraries
  (Go strconv, k8s quantity rendering) are not part of `src/`; each such
  function is modelled in a definition whose doc comment says so.
* Machine int64 arithmetic never overflows in the scenarios considered, so
  integers are modelled by `Int` (with `Int.tdiv`, Go truncating division,
  where a quotient is taken).
-/

/-! ### Decimal integer formatting (model of Go strconv.FormatInt(i, 10)) -/

/-- Modelled from the spec: decimal digit character, used to model the external
Go standard library formatter `strconv.FormatInt(_, 10)` (not part of this
repository). -/
def digitChar (n : Nat) : Char :=
  if n = 0 then '0'
  else if n = 1 then '1'
  else if n = 2 then '2'
  else if n = 3 then '3'
  else if n = 4 then '4'
  else if n = 5 then '5'
  else if n = 6 then '6'
  else if n = 7 then '7'
  else if n = 8 then '8'
  else '9'

/-- Digit accumulation for `natRepr`, most significant digit first; the fuel
argument (any bound above the value) keeps the recursion structural. -/
def natReprAux (fuel : Nat) (n : Nat) (acc : List Char) : List Char :=
  match fuel with
  | 0 => acc
  | fuel + 1 =>
    if n < 10 then digitChar n :: acc
    else natReprAux fuel (n / 10) (digitChar (n % 10) :: acc)

/-- Decimal representation of a natural number. -/
def natRepr (n : Nat) : String :=
  ⟨natReprAux (n + 1) n []⟩

/-- Modelled from the spec: the external Go standard library call
`strconv.FormatInt(i, 10)` (decimal formatting of an int64),
which is not part of this repository. -/
def formatInt (i : Int) : String :=
  if i < 0 then "-" ++ natRepr (-i).toNat else natRepr i.toNat

theorem digitChar_ne_dash (n : Nat) : digitChar n ≠ '-' := by
  unfold digitChar
  repeat' split
  all_goals decide

theorem natReprAux_head (fuel : Nat) :
    ∀ n acc, n < fuel → ∃ m rest, natReprAux fuel n acc = digitChar m :: rest := by
  induction fuel with
  | zero => intro n acc h; omega
  | succ fuel ih =>
    intro n acc h
    rw [natReprAux]
    split
    · exact ⟨n, acc, rfl⟩
    · exact ih (n / 10) _ (by omega)

theorem natRepr_head (n : Nat) : ∃ m rest, (natRepr n).data = digitChar m :: rest :=
  natReprAux_head (n + 1) n [] (Nat.lt_succ_self n)

theorem natRepr_ne_dash (n : Nat) : natRepr n ≠ "-" := by
  obtain ⟨m, rest, h⟩ := natRepr_head n
  intro hc
  rw [hc] at h
  have hd : ['-'] = digitChar m :: rest := h
  exact digitChar_ne_dash m (List.cons.injEq _ _ _ _ ▸ hd).1.symm

theorem natRepr_ne_empty (n : Nat) : natRepr n ≠ "" := by
  obtain ⟨m, rest, h⟩ := natRepr_head n
  intro hc
  rw [hc] at h
  exact List.cons_ne_nil _ _ h.symm

/-- A string of length zero is the empty string. -/
theorem string_length_zero {s : String} (h : s.length = 0) : s = "" := by
  obtain ⟨data⟩ := s
  have hd : data = [] := List.length_eq_zero.mp h
  subst hd
  rfl

theorem formatInt_ne_dash (i : Int) : formatInt i ≠ "-" := by
  unfold formatInt
  split
  · intro hc
    have hlen : ("-" ++ natRepr (-i).toNat).length = ("-" : String).length :=
      congrArg String.length hc
    rw [String.length_append] at hlen
    have h1 : ("-" : String).length = 1 := by decide
    have h2 : (natRepr (-i).toNat).length ≠ 0 := fun h0 =>
      natRepr_ne_empty (-i).toNat (string_length_zero h0)
    omega
  · exact natRepr_ne_dash _

theorem formatInt_ne_empty (i : Int) : formatInt i ≠ "" := by
  unfold formatInt
  split
  · intro hc
    have hlen : ("-" ++ natRepr (-i).toNat).length = ("" : String).length :=
      congrArg String.length hc
    rw [String.length_append] at hlen
    have h1 : ("-" : String).length = 1 := by decide
    have h2 : ("" : String).length = 0 := by decide
    omega
  · exact natRepr_ne_empty _

/-- Appending a nonempty string to a nonempty string never yields `"-"`. -/
theorem append_ne_dash {s t : String} (hs : s ≠ "") (ht : t ≠ "") :
    s ++ t ≠ "-" := by
  intro hc
  have hlen : (s ++ t).length = ("-" : String).length := congrArg String.length hc
  rw [String.length_append] at hlen
  have h1 : ("-" : String).length = 1 := by decide
  have hs0 : s.length ≠ 0 := fun h0 => hs (string_length_zero h0)
  have ht0 : t.length ≠ 0 := fun h0 => ht (string_length_zero h0)
  omega

/-! ### Model of k8s quantity rendering for milli quantities -/

/-- Positive decimal-SI suffix for an exponent step of 1000. -/
def suffixPow : Nat → String
  | 0 => ""
  | 1 => "k"
  | 2 => "M"
  | 3 => "G"
  | 4 => "T"
  | 5 => "P"
  | _ => "E"

/-- Divide by 1000 while divisible, counting the steps (capped at 6). -/
def reduceThousands (v : Int) (e : Nat) (fuel : Nat) : Int × Nat :=
  match fuel with
  | 0 => (v, e)
  | fuel + 1 =>
    if v ≠ 0 ∧ v % 1000 = 0 ∧ e < 6 then reduceThousands (v / 1000) (e + 1) fuel
    else (v, e)

/-- Modelled from the spec: canonical rendering of
`resource.NewMilliQuantity(i, resource.DecimalSI).String()` from the external
k8s apimachinery library (not part of this repository): a value divisible by
1000 is printed in whole units (with a decimal-SI magnitude suffix when it is
further divisible by powers of 1000), otherwise with the `m` (milli) suffix. -/
def milliQuantityString (i : Int) : String :=
  if i % 1000 = 0 then
    formatInt (reduceThousands (i / 1000) 0 6).1 ++ suffixPow (reduceThousands (i / 1000) 0 6).2
  else
    formatInt i ++ "m"

theorem milliQuantityString_ne_dash (i : Int) : milliQuantityString i ≠ "-" := by
  unfold milliQuantityString
  split
  · by_cases h : suffixPow (reduceThousands (i / 1000) 0 6).2 = ""
    · rw [h]
      intro hc
      exact formatInt_ne_dash _ (by simpa using hc)
    · exact append_ne_dash (formatInt_ne_empty _) h
  · exact append_ne_dash (formatInt_ne_empty _) (by decide)

/-! ### Output table (pkg/table/table.go) -/

/-- Modelled from the spec: `util.JoinTab` (pkg/util is not under src/), the
single-delimiter column join used by the tabular renderer. -/
def joinTab (s : List String) : String :=
  String.intercalate "\t" s

/-- OutputTable is struct of tables for outputs (pkg/table/table.go); the
`io.Writer` field carries no data relevant to the embedding and is omitted. -/
structure OutputTable where
  Header : List String
  Rows : List String
deriving Repr, DecidableEq

/-- AddRow adds row to table (pkg/table/table.go). -/
def OutputTable.AddRow (t : OutputTable) (s : List String) : OutputTable :=
  { t with Rows := t.Rows ++ [joinTab s] }

/-! ### Command options (pkg/cmd/free.go) -/

/-- The value of the `sortResource` flag is a plain string in the source;
`memorySortResource` and `cpuSortResource` are its two valid values. -/
def memorySortResource : String := "memory"

def cpuSortResource : String := "cpu"

/-- FreeOptions is struct of df options (pkg/cmd/free.go). Kubernetes client
fields are replaced by the data those collaborators return (passed to `Run`
and `showPodsOnNode` as arguments); `metricsPodClientPresent` models the
`o.metricsPodClient != nil` test. The source field `binPrefix` is named
`binPrefixFlag` here. -/
structure FreeOptions where
  labelSelector : String := ""
  pod : Bool := false
  emojiStatus : Bool := false
  allNamespaces : Bool := true
  noHeaders : Bool := false
  noMetrics : Bool := false
  compactView : Bool := true
  bytes : Bool := false
  kByte : Bool := false
  mByte : Bool := true
  gByte : Bool := false
  withoutUnit : Bool := false
  binPrefixFlag : Bool := false
  nocolor : Bool := false
  warnThreshold : Int := 60
  critThreshold : Int := 90
  list : Bool := false
  listContainerImage : Bool := false
  listAll : Bool := false
  sortByResource : String := memorySortResource
  metricsPodClientPresent : Bool := true
  table : OutputTable := { Header := [], Rows := [] }
  listTableHeaders : List String := []
deriving Repr, DecidableEq

/-! ### Unit formatting (pkg/cmd/free.go) -/

/-- Modelled from the spec: `util.GetSiUnit` (pkg/util is not under src/) —
the decimal 1000-based unit system selecting B/K/M/G by flag, default mega. -/
def getSiUnit (b k m g : Bool) : Int × String :=
  if b then (1, "B")
  else if k then (1000, "K")
  else if m then (1000 * 1000, "M")
  else if g then (1000 * 1000 * 1000, "G")
  else (1000 * 1000, "M")

/-- Modelled from the spec: `util.GetBinUnit` (pkg/util is not under src/) —
the binary 1024-based unit system selecting B/KiB/MiB/GiB by flag, default
mebi. -/
def getBinUnit (b k m g : Bool) : Int × String :=
  if b then (1, "B")
  else if k then (1024, "KiB")
  else if m then (1024 * 1024, "MiB")
  else if g then (1024 * 1024 * 1024, "GiB")
  else (1024 * 1024, "MiB")

/-- The unit chosen by `toUnit` from the flags (the first branch of the
source function). -/
def unitOf (o : FreeOptions) : Int × String :=
  if o.binPrefixFlag then getBinUnit o.bytes o.kByte o.mByte o.gByte
  else getSiUnit o.bytes o.kByte o.mByte o.gByte

/-- toUnit calculate and add unit for int64 (pkg/cmd/free.go). -/
def toUnit (o : FreeOptions) (i : Int) : String :=
  formatInt (Int.tdiv i (unitOf o).1) ++ (if ¬o.withoutUnit then (unitOf o).2 else "")

/-- toUnitOrDash returns "-" if "i" is 0, otherwise returns toUnit()
(pkg/cmd/free.go). -/
def toUnitOrDash (o : FreeOptions) (i : Int) : String :=
  if i = 0 then "-" else toUnit o i

/-- toMilliUnitOrDash returns "-" if "i" is 0, otherwise returns MilliQuantity
(pkg/cmd/free.go). -/
def toMilliUnitOrDash (o : FreeOptions) (i : Int) : String :=
  if i = 0 then "-"
  else if o.withoutUnit then formatInt i
  else milliQuantityString i

theorem unitOf_str_ne_empty (o : FreeOptions) : (unitOf o).2 ≠ "" := by
  unfold unitOf getBinUnit getSiUnit
  repeat' split
  all_goals decide

theorem toUnit_ne_dash (o : FreeOptions) (i : Int) : toUnit o i ≠ "-" := by
  unfold toUnit
  split
  · exact append_ne_dash (formatInt_ne_empty _) (unitOf_str_ne_empty o)
  · intro hc
    exact formatInt_ne_dash _ (by simpa using hc)

/-! ### Severity colouring (pkg/cmd/free.go toColorPercent) -/

/-- Modelled from the spec: `util.Green` (pkg/util is not under src/), ANSI
green styling of a string. -/
def greenColor (s : String) : String :=
  "\x1b[32m" ++ s ++ "\x1b[0m"

/-- Modelled from the spec: `util.Yellow` (pkg/util is not under src/), ANSI
yellow styling of a string. -/
def yellowColor (s : String) : String :=
  "\x1b[33m" ++ s ++ "\x1b[0m"

/-- Modelled from the spec: `util.Red` (pkg/util is not under src/), ANSI
red styling of a string. -/
def redColor (s : String) : String :=
  "\x1b[31m" ++ s ++ "\x1b[0m"

/-- The three severity bands of the classifier (spec section 4.2). -/
inductive Severity where
  | ok
  | warn
  | crit
deriving Repr, DecidableEq

/-- The branch taken by the switch of `toColorPercent` (pkg/cmd/free.go):
green when `i < warnThreshold`, yellow when `i < critThreshold`, red
otherwise. -/
def classify (warnThreshold critThreshold i : Int) : Severity :=
  if i < warnThreshold then Severity.ok
  else if i < critThreshold then Severity.warn
  else Severity.crit

/-- Styling applied to each severity band. -/
def colorize : Severity → String → String
  | Severity.ok => greenColor
  | Severity.warn => yellowColor
  | Severity.crit => redColor

/-- toColorPercent returns colored strings (pkg/cmd/free.go). -/
def toColorPercent (o : FreeOptions) (i : Int) : String :=
  if o.nocolor then formatInt i ++ "%"
  else if i < o.warnThreshold then greenColor (formatInt i ++ "%")
  else if i < o.critThreshold then yellowColor (formatInt i ++ "%")
  else redColor (formatInt i ++ "%")

/-! ### Container rows and sorting (pkg/cmd/showpods.go) -/

/-- formattedResource (pkg/cmd/showpods.go): a `resource.Quantity` (modelled
by its integer value) together with its preformatted display string. -/
structure formattedResource where
  quantity : Int
  formatted : String
deriving Repr, DecidableEq

/-- podInfo (pkg/cmd/showpods.go): one row of the container list. Go nil
pointers for the usage fields are modelled by `Option`; Go zero-value strings
by `""`. -/
structure podInfo where
  nodeName : String := ""
  podNamespace : String := ""
  podName : String := ""
  podAge : String := ""
  podIP : String := ""
  podStatus : String := ""
  containerName : String := ""
  containerCPUUsed : Option formattedResource := none
  containerCPURequested : String := ""
  containerCPULimit : String := ""
  containerMemoryUsed : Option formattedResource := none
  containerMemoryRequested : String := ""
  containerMemoryLimit : String := ""
  containerImage : String := ""
deriving Repr, DecidableEq

/-- The memory comparator passed to the sort in `sortEntries`
(pkg/cmd/showpods.go, `case memorySortResource`); the four cases appear in
source order. `Quantity.Cmp ... < 0` is integer comparison of the values. -/
def memLess (a b : podInfo) : Bool :=
  match a.containerMemoryUsed, b.containerMemoryUsed with
  | none, none => false
  | some _, none => false
  | none, some _ => true
  | some x, some y => x.quantity < y.quantity

/-- The CPU comparator passed to the sort in `sortEntries`
(pkg/cmd/showpods.go, `case cpuSortResource`). -/
def cpuLess (a b : podInfo) : Bool :=
  match a.containerCPUUsed, b.containerCPUUsed with
  | none, none => false
  | some _, none => false
  | none, some _ => true
  | some x, some y => x.quantity < y.quantity

/-- The sort key realised by `memLess`: a missing usage sample compares
below every present sample, and present samples compare by value. -/
def memKey (x : podInfo) : WithBot Int :=
  match x.containerMemoryUsed with
  | none => ⊥
  | some u => (u.quantity : WithBot Int)

/-- The sort key realised by `cpuLess`. -/
def cpuKey (x : podInfo) : WithBot Int :=
  match x.containerCPUUsed with
  | none => ⊥
  | some u => (u.quantity : WithBot Int)

/-- The non-strict order derived from a boolean comparator: `a` may stay
before `b` whenever `b` is not strictly less than `a`. -/
def sortLE (less : podInfo → podInfo → Bool) (a b : podInfo) : Prop :=
  less b a = false

instance (less : podInfo → podInfo → Bool) : DecidableRel (sortLE less) :=
  fun a b => instDecidableEqBool (less b a) false

/-- Modelled from the spec: the call `slices.SortFunc(items, less)` from the
`golang.org/x/exp` dependency, whose pinned version (the repository go.mod)
is not under src/. The spec prescribes "a stable ascending sort ... whose
behavior on equal/incomparable elements matches leave relative order
unchanged"; for a comparator that is a strict weak order this determines the
output uniquely, and the model realises it by stable insertion sort. -/
def sortFunc (less : podInfo → podInfo → Bool) (items : List podInfo) : List podInfo :=
  List.insertionSort (sortLE less) items

/-- sortEntries (pkg/cmd/showpods.go): dispatch on the `sortByResource`
option; any other value leaves the list unchanged. -/
def sortEntries (o : FreeOptions) (items : List podInfo) : List podInfo :=
  if o.sortByResource = memorySortResource then sortFunc memLess items
  else if o.sortByResource = cpuSortResource then sortFunc cpuLess items
  else items

theorem memLess_iff_key (a b : podInfo) : memLess a b = true ↔ memKey a < memKey b := by
  unfold memLess memKey
  cases a.containerMemoryUsed <;> cases b.containerMemoryUsed <;>
    simp [WithBot.bot_lt_coe, WithBot.coe_lt_coe]

theorem cpuLess_iff_key (a b : podInfo) : cpuLess a b = true ↔ cpuKey a < cpuKey b := by
  unfold cpuLess cpuKey
  cases a.containerCPUUsed <;> cases b.containerCPUUsed <;>
    simp [WithBot.bot_lt_coe, WithBot.coe_lt_coe]

theorem sortLE_iff_key {β : Type} [LinearOrder β] (K : podInfo → β)
    (less : podInfo → podInfo → Bool)
    (hless : ∀ a b, less a b = true ↔ K a < K b) (a b : podInfo) :
    sortLE less a b ↔ K a ≤ K b := by
  unfold sortLE
  rw [Bool.eq_false_iff]
  constructor
  · intro h
    rw [← not_lt]
    intro hlt
    exact h ((hless b a).mpr hlt)
  · intro h hba
    exact absurd h (not_le.mpr ((hless b a).mp hba))

theorem sortFunc_sorted {β : Type} [LinearOrder β] (K : podInfo → β)
    (less : podInfo → podInfo → Bool)
    (hless : ∀ a b, less a b = true ↔ K a < K b) (l : List podInfo) :
    List.Sorted (sortLE less) (sortFunc less l) := by
  haveI : IsTotal podInfo (sortLE less) := by
    constructor
    intro a b
    rw [sortLE_iff_key K less hless, sortLE_iff_key K less hless]
    exact le_total (K a) (K b)
  haveI : IsTrans podInfo (sortLE less) := by
    constructor
    intro a b c hab hbc
    rw [sortLE_iff_key K less hless] at hab hbc ⊢
    exact le_trans hab hbc
  exact List.sorted_insertionSort _ _

theorem sortFunc_perm (less : podInfo → podInfo → Bool) (l : List podInfo) :
    List.Perm (sortFunc less l) l :=
  List.perm_insertionSort _ _

theorem sortFunc_filter_key {β : Type} [LinearOrder β] (K : podInfo → β)
    (less : podInfo → podInfo → Bool)
    (hless : ∀ a b, less a b = true ↔ K a < K b) (k : β) :
    ∀ l : List podInfo,
      (sortFunc less l).filter (fun x => decide (K x = k)) =
        l.filter (fun x => decide (K x = k))
  | [] => rfl
  | a :: l => by
    have ih := sortFunc_filter_key K less hless k l
    unfold sortFunc at ih ⊢
    rw [List.insertionSort, List.orderedInsert_eq_take_drop]
    set s := List.insertionSort (sortLE less) l with hs
    set p : podInfo → Bool := fun x => decide (K x = k) with hp
    set q : podInfo → Bool := fun b => decide (¬ sortLE less a b) with hq
    have hsplit : s.filter p = (s.takeWhile q).filter p ++ (s.dropWhile q).filter p := by
      rw [← List.filter_append, List.takeWhile_append_dropWhile]
    by_cases hak : K a = k
    · have htake : ∀ b ∈ s.takeWhile q, p b = false := by
        intro b hb
        have hqb := List.mem_takeWhile_imp hb
        rw [hq] at hqb
        have hnle : ¬ sortLE less a b := of_decide_eq_true hqb
        rw [sortLE_iff_key K less hless] at hnle
        have hlt : K b < K a := lt_of_not_le hnle
        rw [hp]
        simp only [decide_eq_false_iff_not]
        intro hbk
        rw [hbk, hak] at hlt
        exact lt_irrefl k hlt
      have htakenil : (s.takeWhile q).filter p = [] := by
        rw [List.filter_eq_nil_iff]
        intro b hb
        rw [htake b hb]
        exact Bool.false_ne_true
      have hpa : p a = true := by
        rw [hp]
        simpa using hak
      rw [List.filter_append, List.filter_cons_of_pos hpa, htakenil, List.nil_append]
      have hdrop : (s.dropWhile q).filter p = s.filter p := by
        rw [hsplit, htakenil, List.nil_append]
      rw [hdrop, ih, List.filter_cons_of_pos hpa]
    · have hpa : p a = false := by
        rw [hp]
        simpa using hak
      rw [List.filter_append, List.filter_cons_of_neg (by rw [hpa]; exact Bool.false_ne_true),
        ← List.filter_append, List.takeWhile_append_dropWhile, ih,
        List.filter_cons_of_neg (by rw [hpa]; exact Bool.false_ne_true)]

/-! ### Cluster data supplied by collaborators (spec section 6) -/

/-- One container of a pod spec: name, image and the four declared resource
values read in the container loop of `showPodsOnNode`
(`Requests.Cpu().MilliValue()`, `Limits.Cpu().MilliValue()`,
`Requests.Memory().Value()`, `Limits.Memory().Value()`). -/
structure container where
  name : String := ""
  image : String := ""
  cpuRequested : Int := 0
  cpuLimit : Int := 0
  memRequested : Int := 0
  memLimit : Int := 0
deriving Repr, DecidableEq

/-- One entry of the pod-metrics snapshot: the usage sample of one container
of one pod (CPU millicores, memory bytes). -/
structure containerMetric where
  podName : String := ""
  containerName : String := ""
  cpu : Int := 0
  mem : Int := 0
deriving Repr, DecidableEq

/-- One pod as returned by the pod-listing collaborator. The pod age shown is
time dependent; the already-humanised duration string is supplied as data
(`ageIfKnown`), with `creationTimeZero` modelling
`pod.ObjectMeta.CreationTimestamp.IsZero()`. -/
structure pod where
  name : String := ""
  namespaceName : String := ""
  ip : String := ""
  phase : String := ""
  creationTimeZero : Bool := false
  ageIfKnown : String := ""
  containers : List container := []
deriving Repr, DecidableEq

/-- View of `Except` as a sum, used to derive decidable equality. -/
def exceptToSum {ε α : Type} : Except ε α → Sum ε α
  | Except.error e => Sum.inl e
  | Except.ok a => Sum.inr a

instance {ε α : Type} [DecidableEq ε] [DecidableEq α] : DecidableEq (Except ε α) :=
  fun a b =>
    decidable_of_iff (exceptToSum a = exceptToSum b)
      (by cases a <;> cases b <;> simp [exceptToSum])

/-- One node as returned by the node-listing collaborator, carrying the
result of the per-node `util.GetPods` call made inside the node loop. -/
structure node where
  name : String := ""
  pods : Except String (List pod) := Except.ok []
deriving Repr, DecidableEq

/-- Modelled from the spec: `util.GetContainerMetrics` (pkg/util is not under
src/) — looks a (pod name, container name) pair up in the usage snapshot;
absence of an entry means unknown, yielding nil for both samples. -/
def getContainerMetrics (m : List containerMetric) (podName containerName : String) :
    Option Int × Option Int :=
  match m.find? (fun e => e.podName == podName && e.containerName == containerName) with
  | some e => (some e.cpu, some e.mem)
  | none => (none, none)

/-- Modelled from the spec: `util.GetPodStatus` (pkg/util is not under src/)
— the display string for a pod phase; colour/emoji decoration is elided as no
claim concerns it. -/
def getPodStatus (phase : String) (_nocolor _emoji : Bool) : String :=
  phase

/-- The body of the container loop of `showPodsOnNode`
(pkg/cmd/showpods.go): builds the `podInfo` row for one container, attaching
usage samples when a metrics snapshot is present, and returns `none` exactly
when the source executes `continue` (show-all disabled and all four declared
resource values zero). Field updates appear in source order. -/
def containerRow (o : FreeOptions) (podMetrics : Option (List containerMetric))
    (nodeName podName podNamespace podAge podIP podStatus : String) (c : container) :
    Option podInfo :=
  let row : podInfo :=
    { nodeName := nodeName, podNamespace := podNamespace, podName := podName,
      podAge := podAge, podIP := podIP, podStatus := podStatus, containerName := c.name }
  let row := match podMetrics with
    | some pm =>
      if o.noMetrics then row
      else
        let used := getContainerMetrics pm podName c.name
        let row := match used.1 with
          | some q => { row with containerCPUUsed := some ⟨q, toMilliUnitOrDash o q⟩ }
          | none => row
        match used.2 with
        | some q => { row with containerMemoryUsed := some ⟨q, toUnitOrDash o q⟩ }
        | none => row
    | none => row
  if o.listAll = false ∧ c.cpuRequested = 0 ∧ c.cpuLimit = 0 ∧
      c.memRequested = 0 ∧ c.memLimit = 0 then
    none
  else
    some { row with
      containerCPURequested := toMilliUnitOrDash o c.cpuRequested,
      containerCPULimit := toMilliUnitOrDash o c.cpuLimit,
      containerMemoryRequested := toUnitOrDash o c.memRequested,
      containerMemoryLimit := toUnitOrDash o c.memLimit,
      containerImage := if o.listContainerImage then c.image else row.containerImage }

/-- The pod loop of `showPodsOnNode` for one node: collects the rows of all
containers of all pods of the node, in construction order. -/
def nodePodsOf (o : FreeOptions) (podMetrics : Option (List containerMetric))
    (nodeName : String) (pods : List pod) : List podInfo :=
  pods.flatMap (fun p =>
    let podAge := if p.creationTimeZero then "<unknown>" else p.ageIfKnown
    let podStatus := getPodStatus p.phase o.nocolor o.emojiStatus
    p.containers.filterMap
      (containerRow o podMetrics nodeName p.name p.namespaceName podAge p.ip podStatus))

/-- podInfoToRow (pkg/cmd/showpods.go): the cells of one printed row. The
second element of the final non-compact block is `info.containerCPULimit`,
exactly as in the source (the `containerMemoryLimit` field is never read
there). -/
def podInfoToRow (o : FreeOptions) (info : podInfo) : List String :=
  (if o.compactView then
    [info.nodeName, info.podNamespace, info.podName, info.podStatus, info.containerName]
  else
    [info.nodeName, info.podNamespace, info.podName, info.podAge, info.podIP,
      info.podStatus, info.containerName])
  ++ (match info.containerCPUUsed with
      | some u => if o.noMetrics then [] else [u.formatted]
      | none => [])
  ++ (if o.compactView then [] else [info.containerCPURequested, info.containerCPULimit])
  ++ (match info.containerMemoryUsed with
      | some u => if o.noMetrics then [] else [u.formatted]
      | none => [])
  ++ (if o.compactView then [] else [info.containerMemoryRequested, info.containerCPULimit])
  ++ (if o.listContainerImage then [info.containerImage] else [])

/-- Modelled from the spec: `util.DefaultColor` (pkg/util is not under src/),
the default-foreground ANSI styling used on headers to keep column widths
stable. -/
def defaultColor (s : String) : String :=
  "\x1b[39m" ++ s ++ "\x1b[0m"

/-- prepareListTableHeader (pkg/cmd/free.go): the header cells for --list. -/
def prepareListTableHeader (o : FreeOptions) : List String :=
  let hPodStatus := if o.nocolor then "POD STATUS" else defaultColor "POD STATUS"
  let baseHeader := ["NODE NAME", "NAMESPACE"]
  let podHeader :=
    if o.compactView then ["POD NAME", hPodStatus]
    else ["POD NAME", "POD AGE", "POD IP", hPodStatus]
  let containerHeader := ["CONTAINER"]
  let cpuHeader :=
    if o.noMetrics then ["CPU/req", "CPU/lim"]
    else if o.compactView then ["CPU/use"]
    else ["CPU/use", "CPU/req", "CPU/lim"]
  let memHeader :=
    if o.noMetrics then ["MEM/req", "MEM/lim"]
    else if o.compactView then ["MEM/use"]
    else ["MEM/use", "MEM/req", "MEM/lim"]
  let imageHeader := if o.listContainerImage then ["IMAGE"] else []
  baseHeader ++ podHeader ++ containerHeader ++ cpuHeader ++ memHeader ++ imageHeader

/-- The node loop of `showPodsOnNode`: a failing per-node pod listing aborts
with its error (`return perr`); otherwise the node's rows are built, sorted
unless metrics are disabled, and appended to the table. -/
def showPodsLoop (o : FreeOptions) (podMetrics : Option (List containerMetric)) :
    List node → OutputTable → Except String OutputTable
  | [], t => Except.ok t
  | n :: ns, t =>
    match n.pods with
    | Except.error e => Except.error e
    | Except.ok pods =>
      let nodePods := nodePodsOf o podMetrics n.name pods
      let nodePods := if o.noMetrics then nodePods else sortEntries o nodePods
      showPodsLoop o podMetrics ns
        (nodePods.foldl (fun t2 r => t2.AddRow (podInfoToRow o r)) t)

/-- showPodsOnNode (pkg/cmd/showpods.go). `podMetricsInput` is the value the
pod-metrics collaborator would deliver; the source fetches it only when
metrics are enabled and a metrics client exists, ignoring the fetch error
(a failed fetch leaves the snapshot nil). The final `table.Print()` renders
`Rows` in order and is not modelled beyond the table contents. -/
def showPodsOnNode (o : FreeOptions) (podMetricsInput : Option (List containerMetric))
    (nodes : List node) : Except String OutputTable :=
  let t := if o.noHeaders then o.table else { o.table with Header := o.listTableHeaders }
  let podMetrics :=
    if o.noMetrics = false ∧ o.metricsPodClientPresent then podMetricsInput else none
  showPodsLoop o podMetrics nodes t

/-- Run (pkg/cmd/free.go). The node-listing collaborator result is
`getNodesResult`; the outcome of `o.showFree` (whose implementation is not
under src/) is supplied as `showFreeResult`. The payload of a successful
return is the table the invocation printed, `none` when nothing was printed.
The first branch mirrors the source literally: on a node-listing error it
executes `return nil`. -/
def Run (o : FreeOptions) (getNodesResult : Except String (List node))
    (podMetricsInput : Option (List containerMetric))
    (showFreeResult : Except String OutputTable) : Except String (Option OutputTable) :=
  match getNodesResult with
  | Except.error _ => Except.ok none
  | Except.ok nodes =>
    if o.list then
      match showPodsOnNode o podMetricsInput nodes with
      | Except.error e => Except.error e
      | Except.ok t => Except.ok (some t)
    else
      match showFreeResult with
      | Except.error e => Except.error e
      | Except.ok t => Except.ok (some t)

/-! ### Node rollup (spec sections 3, 4.3; `showFree` is not under src/) -/

/-- Modelled from the spec: the ResourceSpec of one container — requested and
limit CPU/memory, integers with 0 the "undeclared" sentinel (the `showFree`
summing code is not under src/). -/
structure resourceSpec where
  cpuRequested : Nat := 0
  cpuLimit : Nat := 0
  memRequested : Nat := 0
  memLimit : Nat := 0
deriving Repr, DecidableEq

/-- Modelled from the spec: Percentage(x, capacity) = floor(100 * x /
capacity) when capacity > 0, else absent (the `showFree` percentage code is
not under src/). -/
def percentage (x capacity : Nat) : Option Nat :=
  if 0 < capacity then some (100 * x / capacity) else none

/-- Modelled from the spec: NodeRollup — raw sums, capacity, optional usage
sample and optional percentages per dimension. -/
structure nodeRollup where
  cpuUsed : Option Nat
  cpuRequested : Nat
  cpuLimit : Nat
  cpuAllocatable : Nat
  cpuUsedPercent : Option Nat
  cpuRequestedPercent : Option Nat
  cpuLimitPercent : Option Nat
  memUsed : Option Nat
  memRequested : Nat
  memLimit : Nat
  memAllocatable : Nat
  memUsedPercent : Option Nat
  memRequestedPercent : Option Nat
  memLimitPercent : Option Nat
deriving Repr, DecidableEq

/-- Modelled from the spec: the rollup of one node — requests and limits
summed across the containers of all pods scheduled to the node, node usage
taken from the node-level sample, and percentages only for a positive
capacity (the `showFree` rollup code is not under src/). -/
def rollup (capCpu capMem : Nat) (usage : Option (Nat × Nat))
    (specs : List resourceSpec) : nodeRollup :=
  let reqCpu := (specs.map (fun s => s.cpuRequested)).sum
  let limCpu := (specs.map (fun s => s.cpuLimit)).sum
  let reqMem := (specs.map (fun s => s.memRequested)).sum
  let limMem := (specs.map (fun s => s.memLimit)).sum
  { cpuUsed := usage.map Prod.fst
    cpuRequested := reqCpu
    cpuLimit := limCpu
    cpuAllocatable := capCpu
    cpuUsedPercent :=
      match usage with
      | some u => percentage u.1 capCpu
      | none => none
    cpuRequestedPercent := percentage reqCpu capCpu
    cpuLimitPercent := percentage limCpu capCpu
    memUsed := usage.map Prod.snd
    memRequested := reqMem
    memLimit := limMem
    memAllocatable := capMem
    memUsedPercent :=
      match usage with
      | some u => percentage u.2 capMem
      | none => none
    memRequestedPercent := percentage reqMem capMem
    memLimitPercent := percentage limMem capMem }

/-! ### Claim C7 -/

/-- C7: for capacity > 0 and 0 ≤ usage ≤ capacity the rollup percentage is
floor(100·usage/capacity) and lies in [0, 100]; for capacity 0 every
percentage field of that dimension is absent whatever the usage, while the
raw sums are still reported. -/
theorem c7_percentage_bounds_and_zero_capacity (x cap capMem : Nat)
    (u : Option (Nat × Nat)) (specs : List resourceSpec)
    (hcap : 0 < cap) (hx : x ≤ cap) :
    percentage x cap = some (100 * x / cap) ∧
    (100 * x / cap : ℕ) = Nat.floor ((100 * (x : ℚ)) / (cap : ℚ)) ∧
    100 * x / cap ≤ 100 ∧
    (rollup 0 capMem u specs).cpuUsedPercent = none ∧
    (rollup 0 capMem u specs).cpuRequestedPercent = none ∧
    (rollup 0 capMem u specs).cpuLimitPercent = none ∧
    (rollup 0 capMem u specs).cpuRequested = (specs.map (fun s => s.cpuRequested)).sum ∧
    (rollup 0 capMem u specs).cpuLimit = (specs.map (fun s => s.cpuLimit)).sum ∧
    (rollup 0 capMem u specs).cpuUsed = u.map Prod.fst ∧
    (rollup cap 0 u specs).memUsedPercent = none ∧
    (rollup cap 0 u specs).memRequestedPercent = none ∧
    (rollup cap 0 u specs).memLimitPercent = none ∧
    (rollup cap 0 u specs).memRequested = (specs.map (fun s => s.memRequested)).sum ∧
    (rollup cap 0 u specs).memLimit = (specs.map (fun s => s.memLimit)).sum ∧
    (rollup cap 0 u specs).memUsed = u.map Prod.snd := by
  refine ⟨?_, ?_, ?_, ?_, ?_, ?_, ?_, ?_, ?_, ?_, ?_, ?_, ?_, ?_, ?_⟩
  · unfold percentage
    rw [if_pos hcap]
  · rw [Nat.floor_div_nat (α := ℚ) (100 * (x : ℚ)) cap]
    congr 1
    rw [show ((100 : ℚ) * (x : ℚ)) = ((100 * x : ℕ) : ℚ) by push_cast; ring,
      Nat.floor_natCast]
  · exact Nat.div_le_of_le_mul (by rw [Nat.mul_comm cap 100]; exact Nat.mul_le_mul_left 100 hx)
  · cases u <;> simp [rollup, percentage]
  · simp [rollup, percentage]
  · simp [rollup, percentage]
  · simp [rollup]
  · simp [rollup]
  · simp [rollup]
  · cases u <;> simp [rollup, percentage]
  · simp [rollup, percentage]
  · simp [rollup, percentage]
  · simp [rollup]
  · simp [rollup]
  · simp [rollup]

/-- Witness for C7 at the spec example: capacity 3600 millicores, usage 58. -/
theorem c7_witness :
    percentage 58 3600 = some (100 * 58 / 3600) :=
  (c7_percentage_bounds_and_zero_capacity 58 3600 0 none [] (by decide) (by decide)).1

/-! ### Claim C8 -/

/-- C8: for thresholds warn ≤ crit the classifier yields OK (green) exactly
when the percentage is below warn, WARN (yellow) exactly when it lies in
[warn, crit), and CRIT (red) exactly when it is at least crit; with styling
suppressed only the bare percentage text is produced, otherwise the severity
band's colour is applied to it. -/
theorem c8_classifier_bands (o : FreeOptions) (i : Int)
    (hwc : o.warnThreshold ≤ o.critThreshold) :
    (classify o.warnThreshold o.critThreshold i = Severity.ok ↔ i < o.warnThreshold) ∧
    (classify o.warnThreshold o.critThreshold i = Severity.warn ↔
      o.warnThreshold ≤ i ∧ i < o.critThreshold) ∧
    (classify o.warnThreshold o.critThreshold i = Severity.crit ↔ o.critThreshold ≤ i) ∧
    (o.nocolor = true → toColorPercent o i = formatInt i ++ "%") ∧
    (o.nocolor = false →
      toColorPercent o i =
        colorize (classify o.warnThreshold o.critThreshold i) (formatInt i ++ "%")) := by
  unfold classify toColorPercent colorize
  refine ⟨?_, ?_, ?_, ?_, ?_⟩
  · split_ifs <;> simp_all <;> omega
  · split_ifs <;> simp_all <;> omega
  · split_ifs <;> simp_all <;> omega
  · intro h
    rw [if_pos h]
  · intro h
    rw [if_neg (by rw [h]; exact Bool.false_ne_true)]
    split_ifs <;> rfl

/-- Witness for C8 at the default thresholds (warn 60 ≤ crit 90) and
percentage 75, which classifies as WARN. -/
theorem c8_witness : classify 60 90 75 = Severity.warn :=
  ((c8_classifier_bands {} 75 (by decide)).2.1).mpr (by decide)

/-! ### Claim C9 -/

/-- C9: the dash formatters return the single character "-" exactly for
amount 0; every nonzero amount formats to the corresponding quantity string,
which is never "-". -/
theorem c9_dash_iff_zero (o : FreeOptions) (i : Int) :
    (toUnitOrDash o i = "-" ↔ i = 0) ∧
    (toMilliUnitOrDash o i = "-" ↔ i = 0) ∧
    (i ≠ 0 → toUnitOrDash o i = toUnit o i ∧ toUnit o i ≠ "-") := by
  refine ⟨?_, ?_, ?_⟩
  · unfold toUnitOrDash
    split
    · simp_all
    · simp_all
      exact toUnit_ne_dash o i
  · unfold toMilliUnitOrDash
    split
    · simp_all
    · split
      · simp_all
        exact formatInt_ne_dash i
      · simp_all
        exact milliQuantityString_ne_dash i
  · intro hne
    unfold toUnitOrDash
    rw [if_neg hne]
    exact ⟨rfl, toUnit_ne_dash o i⟩

/-- Helper: `toUnitOrDash` yields the dash exactly at amount 0. -/
theorem toUnitOrDash_dash_iff (o : FreeOptions) (i : Int) :
    toUnitOrDash o i = "-" ↔ i = 0 := by
  unfold toUnitOrDash
  split
  · simp_all
  · simp_all
    exact toUnit_ne_dash o i

/-- Helper: `toMilliUnitOrDash` yields the dash exactly at amount 0. -/
theorem toMilliUnitOrDash_dash_iff (o : FreeOptions) (i : Int) :
    toMilliUnitOrDash o i = "-" ↔ i = 0 := by
  unfold toMilliUnitOrDash
  split
  · simp_all
  · split
    · simp_all
      exact formatInt_ne_dash i
    · simp_all
      exact milliQuantityString_ne_dash i

/-! ### Claim C3 -/

/-- C3 (code bug in the source): `Run` swallows a node-listing failure — the
source reads `if err != nil { return nil }` after `util.GetNodes` — so the
run completes with success status and produces no report instead of
surfacing the error; a pod-listing failure, by contrast, is propagated as
the claim demands. -/
theorem c3_run_swallows_node_listing_error :
    Run { list := true } (Except.error "listing nodes failed") none
        (Except.ok { Header := [], Rows := [] }) = Except.ok none ∧
    Run { list := true }
        (Except.ok [{ name := "node1", pods := Except.error "listing pods failed" }]) none
        (Except.ok { Header := [], Rows := [] }) =
      Except.error "listing pods failed" :=
  ⟨rfl, rfl⟩

/-! ### Claim C5 -/

/-- C5 (code bug in the source): in non-compact list mode the cell under the
`MEM/lim` header carries the formatted CPU limit — `podInfoToRow` appends
`info.containerCPULimit` in the memory block — while the row's
`containerMemoryLimit` field (here `"375M"`) is computed and never printed.
Header position 10 is `MEM/lim`; the row's cell 10 is the CPU limit string
`"304m"`. -/
theorem c5_memlim_cell_carries_cpu_limit :
    (prepareListTableHeader
        { compactView := false, noMetrics := true, nocolor := true, list := true }).getD 10 ""
      = "MEM/lim" ∧
    (containerRow { compactView := false, noMetrics := true, nocolor := true, list := true }
        none "node1" "pod1" "default" "3d22h" "10.112.2.43" "Running"
        { name := "nginx", image := "nginx:latest", cpuRequested := 100, cpuLimit := 304,
          memRequested := 134217000, memLimit := 375390000 }).map
      (fun r => ((podInfoToRow
          { compactView := false, noMetrics := true, nocolor := true, list := true } r).getD 10 "",
        r.containerMemoryLimit, r.containerCPULimit))
      = some ("304m", "375M", "304m") :=
  ⟨rfl, rfl⟩

/-! ### Claim C6 -/

/-- C6: with show-all disabled, a container is excluded from the list output
exactly when all four declared resource values (CPU request, CPU limit,
memory request, memory limit) are the undeclared sentinel 0; the rule reads
only those four spec fields, so it is independent of the usage snapshot
(quantified here over every snapshot). -/
theorem c6_skip_iff_all_spec_zero (o : FreeOptions) (pm : Option (List containerMetric))
    (nodeName podName podNamespace podAge podIP podStatus : String) (c : container)
    (hla : o.listAll = false) :
    containerRow o pm nodeName podName podNamespace podAge podIP podStatus c = none ↔
      c.cpuRequested = 0 ∧ c.cpuLimit = 0 ∧ c.memRequested = 0 ∧ c.memLimit = 0 := by
  simp only [containerRow]
  by_cases hz : c.cpuRequested = 0 ∧ c.cpuLimit = 0 ∧ c.memRequested = 0 ∧ c.memLimit = 0
  · rw [if_pos ⟨hla, hz.1, hz.2.1, hz.2.2.1, hz.2.2.2⟩]
    exact iff_of_true rfl hz
  · rw [if_neg (fun hcond => hz ⟨hcond.2.1, hcond.2.2.1, hcond.2.2.2.1, hcond.2.2.2.2⟩)]
    exact iff_of_false (by simp) hz

/-- A usage snapshot holding one nonzero sample for pod1/c1, used to witness
that the skip rule ignores usage. -/
def nonzeroSnapshot : List containerMetric :=
  [{ podName := "pod1", containerName := "c1", cpu := 250, mem := 1000000 }]

/-- Witness for C6: a container with all four spec fields 0 is excluded even
though the snapshot holds a nonzero usage sample for it. -/
theorem c6_witness :
    containerRow {} (some nonzeroSnapshot) "node1" "pod1" "default" "1d" "10.0.0.1"
      "Running" { name := "c1" } = none :=
  (c6_skip_iff_all_spec_zero {} (some nonzeroSnapshot) "node1" "pod1" "default" "1d"
    "10.0.0.1" "Running" { name := "c1" } rfl).mpr ⟨rfl, rfl, rfl, rfl⟩

/-! ### Claim C4 -/

/-- A snapshot whose only entry samples pod1/c1 at measured value 0 for both
dimensions. -/
def zeroSampleSnapshot : List containerMetric :=
  [{ podName := "pod1", containerName := "c1", cpu := 0, mem := 0 }]

/-- A container with a declared CPU request, so the skip rule never fires. -/
def declaredContainer : container :=
  { name := "c1", cpuRequested := 100 }

/-- C4 counterexample: with metrics enabled (default options), a PRESENT
usage sample measuring exactly 0 renders as a dash in both use cells, and an
ABSENT sample (empty snapshot) drops the use cells from the row entirely
instead of emitting a dash — the row shrinks from 7 cells to 5. -/
theorem c4_counterexample :
    (containerRow {} (some zeroSampleSnapshot) "node1" "pod1" "default" "1d" "10.0.0.1"
        "Running" declaredContainer).map (podInfoToRow {}) =
      some ["node1", "default", "pod1", "Running", "c1", "-", "-"] ∧
    (containerRow {} (some []) "node1" "pod1" "default" "1d" "10.0.0.1"
        "Running" declaredContainer).map (podInfoToRow {}) =
      some ["node1", "default", "pod1", "Running", "c1"] :=
  ⟨rfl, rfl⟩

/-- C4 (amended): with metrics enabled, a present usage sample is stored with
its value rendered through the zero-to-dash formatter — so a measured 0
renders as a dash and a nonzero measurement as a formatted value — while an
absent sample leaves the option field empty and `podInfoToRow` then OMITS the
use cell instead of emitting a dash (the row length drops accordingly); a
present sample's formatted string is always emitted as a cell. -/
theorem c4_use_cells (o : FreeOptions) (pm : List containerMetric)
    (nodeName podName podNamespace podAge podIP podStatus : String) (c : container)
    (row info : podInfo) (u : formattedResource) (q r : Int)
    (hm : o.noMetrics = false) :
    (getContainerMetrics pm podName c.name = (some q, some r) →
      containerRow o (some pm) nodeName podName podNamespace podAge podIP podStatus c =
        some row →
      row.containerCPUUsed = some ⟨q, toMilliUnitOrDash o q⟩ ∧
      row.containerMemoryUsed = some ⟨r, toUnitOrDash o r⟩) ∧
    (toMilliUnitOrDash o q = "-" ↔ q = 0) ∧
    (toUnitOrDash o r = "-" ↔ r = 0) ∧
    ((podInfoToRow o info).length =
      (if o.compactView then 5 else 11) +
      (if info.containerCPUUsed.isSome then 1 else 0) +
      (if info.containerMemoryUsed.isSome then 1 else 0) +
      (if o.listContainerImage then 1 else 0)) ∧
    (info.containerCPUUsed = some u → u.formatted ∈ podInfoToRow o info) ∧
    (info.containerMemoryUsed = some u → u.formatted ∈ podInfoToRow o info) := by
  refine ⟨?_, toMilliUnitOrDash_dash_iff o q, toUnitOrDash_dash_iff o r, ?_, ?_, ?_⟩
  · intro hlook hsome
    simp only [containerRow, hm, hlook] at hsome
    split at hsome
    · exact absurd hsome (by simp)
    · have hrow := (Option.some.injEq _ _).mp hsome
      subst hrow
      exact ⟨rfl, rfl⟩
  · cases hcu : info.containerCPUUsed <;> cases hmu : info.containerMemoryUsed <;>
      by_cases hcv : o.compactView <;> by_cases hli : o.listContainerImage <;>
      simp [podInfoToRow, hm, hcv, hli, hcu, hmu]
  · intro hu
    by_cases hcv : o.compactView <;> simp [podInfoToRow, hm, hcv, hu]
  · intro hu
    by_cases hcv : o.compactView <;> simp [podInfoToRow, hm, hcv, hu]

/-- Witness for C4 at metrics-enabled default options: a row without samples
renders 5 cells. -/
theorem c4_witness : (podInfoToRow {} {}).length = 5 :=
  (c4_use_cells {} [] "" "" "" "" "" "" {} {} {} ⟨0, ""⟩ 0 0 rfl).2.2.2.1

/-! ### Claim C1 -/

/-- A row carrying usage samples in both dimensions. -/
def presentRow : podInfo :=
  { podName := "present", containerCPUUsed := some ⟨7, "7m"⟩,
    containerMemoryUsed := some ⟨5, "5"⟩ }

/-- A row carrying no usage sample in either dimension. -/
def missingRow : podInfo :=
  { podName := "missing" }

/-- C1 counterexample: sorting by MEMORY (the default dimension), the row
LACKING a usage sample is placed BEFORE the row having one — the source
comparator returns true (less) for (missing, present), the opposite of the
claimed tie-break — so a missing-sample row does appear before a
present-sample row in the ascending output. -/
theorem c1_counterexample :
    sortEntries {} [presentRow, missingRow] = [missingRow, presentRow] ∧
    missingRow.containerMemoryUsed = none ∧
    presentRow.containerMemoryUsed.isSome = true ∧
    memLess missingRow presentRow = true :=
  ⟨rfl, rfl, rfl, rfl⟩

/-- `memKey` is bottom exactly for rows without a memory usage sample. -/
theorem memKey_eq_bot_iff (x : podInfo) :
    memKey x = ⊥ ↔ x.containerMemoryUsed = none := by
  unfold memKey
  cases h : x.containerMemoryUsed <;> simp

/-- `cpuKey` is bottom exactly for rows without a CPU usage sample. -/
theorem cpuKey_eq_bot_iff (x : podInfo) :
    cpuKey x = ⊥ ↔ x.containerCPUUsed = none := by
  unfold cpuKey
  cases h : x.containerCPUUsed <;> simp

/-- C1 (amended): in the ascending output a row whose usage sample for the
sort dimension is ABSENT never appears AFTER a row whose sample is present
(missing rows cluster toward the start, not the end), two rows both lacking
a sample retain their relative input order, and the comparator treats
missing-vs-missing as equal while missing-vs-present is LESS (and
present-vs-missing not-less). -/
theorem c1_missing_rows_cluster_first (o : FreeOptions) (l : List podInfo) :
    (o.sortByResource = memorySortResource →
      List.Pairwise
        (fun x y => y.containerMemoryUsed = none → x.containerMemoryUsed = none)
        (sortEntries o l) ∧
      (sortEntries o l).filter (fun x => decide (x.containerMemoryUsed = none)) =
        l.filter (fun x => decide (x.containerMemoryUsed = none))) ∧
    (o.sortByResource = cpuSortResource →
      List.Pairwise
        (fun x y => y.containerCPUUsed = none → x.containerCPUUsed = none)
        (sortEntries o l) ∧
      (sortEntries o l).filter (fun x => decide (x.containerCPUUsed = none)) =
        l.filter (fun x => decide (x.containerCPUUsed = none))) ∧
    (∀ a b : podInfo, a.containerMemoryUsed = none → b.containerMemoryUsed = none →
      memLess a b = false ∧ memLess b a = false) ∧
    (∀ a b : podInfo, a.containerMemoryUsed = none → b.containerMemoryUsed.isSome →
      memLess a b = true ∧ memLess b a = false) := by
  refine ⟨?_, ?_, ?_, ?_⟩
  · intro hs
    unfold sortEntries
    rw [if_pos hs]
    constructor
    · have hsorted := sortFunc_sorted memKey memLess memLess_iff_key l
      refine hsorted.imp ?_
      intro x y hxy hynone
      cases hcx : x.containerMemoryUsed with
      | none => rfl
      | some v =>
        exfalso
        have : memLess y x = true := by
          unfold memLess
          rw [hynone, hcx]
        rw [hxy] at this
        exact Bool.false_ne_true this
    · have h := sortFunc_filter_key memKey memLess memLess_iff_key ⊥ l
      have hpred : (fun x => decide (memKey x = ⊥)) =
          (fun x : podInfo => decide (x.containerMemoryUsed = none)) := by
        funext x
        rw [decide_eq_decide]; exact memKey_eq_bot_iff x
      rw [hpred] at h
      exact h
  · intro hs
    unfold sortEntries
    rw [if_neg (by rw [hs]; decide), if_pos hs]
    constructor
    · have hsorted := sortFunc_sorted cpuKey cpuLess cpuLess_iff_key l
      refine hsorted.imp ?_
      intro x y hxy hynone
      cases hcx : x.containerCPUUsed with
      | none => rfl
      | some v =>
        exfalso
        have : cpuLess y x = true := by
          unfold cpuLess
          rw [hynone, hcx]
        rw [hxy] at this
        exact Bool.false_ne_true this
    · have h := sortFunc_filter_key cpuKey cpuLess cpuLess_iff_key ⊥ l
      have hpred : (fun x => decide (cpuKey x = ⊥)) =
          (fun x : podInfo => decide (x.containerCPUUsed = none)) := by
        funext x
        rw [decide_eq_decide]; exact cpuKey_eq_bot_iff x
      rw [hpred] at h
      exact h
  · intro a b ha hb
    constructor <;> (unfold memLess; rw [ha, hb])
  · intro a b ha hb
    cases hcb : b.containerMemoryUsed with
    | none => rw [hcb] at hb; exact absurd hb (by simp)
    | some v => constructor <;> (unfold memLess; rw [ha, hcb])

/-- Witness for C1 (amended) on a concrete two-row list sorted by memory. -/
theorem c1_witness :
    List.Pairwise
      (fun x y => y.containerMemoryUsed = none → x.containerMemoryUsed = none)
      (sortEntries {} [presentRow, missingRow]) :=
  ((c1_missing_rows_cluster_first {} [presentRow, missingRow]).1 rfl).1

/-! ### Claim C2 -/

/-- Incomparability under `memLess` is exactly equality of the memory sort
keys (equal usage values, or both samples missing). -/
theorem memLess_incomparable_iff (a b : podInfo) :
    (memLess a b = false ∧ memLess b a = false) ↔ memKey a = memKey b := by
  constructor
  · intro hpair
    have n1 : ¬ memKey a < memKey b := fun hlt => by
      rw [(memLess_iff_key a b).mpr hlt] at hpair
      exact Bool.noConfusion hpair.1
    have n2 : ¬ memKey b < memKey a := fun hlt => by
      rw [(memLess_iff_key b a).mpr hlt] at hpair
      exact Bool.noConfusion hpair.2
    exact le_antisymm (not_lt.mp n2) (not_lt.mp n1)
  · intro hk
    constructor
    · cases hl : memLess a b
      · rfl
      · rw [memLess_iff_key] at hl
        rw [hk] at hl
        exact absurd hl (lt_irrefl _)
    · cases hl : memLess b a
      · rfl
      · rw [memLess_iff_key] at hl
        rw [hk] at hl
        exact absurd hl (lt_irrefl _)

/-- Incomparability under `cpuLess` is exactly equality of the CPU sort
keys. -/
theorem cpuLess_incomparable_iff (a b : podInfo) :
    (cpuLess a b = false ∧ cpuLess b a = false) ↔ cpuKey a = cpuKey b := by
  constructor
  · intro hpair
    have n1 : ¬ cpuKey a < cpuKey b := fun hlt => by
      rw [(cpuLess_iff_key a b).mpr hlt] at hpair
      exact Bool.noConfusion hpair.1
    have n2 : ¬ cpuKey b < cpuKey a := fun hlt => by
      rw [(cpuLess_iff_key b a).mpr hlt] at hpair
      exact Bool.noConfusion hpair.2
    exact le_antisymm (not_lt.mp n2) (not_lt.mp n1)
  · intro hk
    constructor
    · cases hl : cpuLess a b
      · rfl
      · rw [cpuLess_iff_key] at hl
        rw [hk] at hl
        exact absurd hl (lt_irrefl _)
    · cases hl : cpuLess b a
      · rfl
      · rw [cpuLess_iff_key] at hl
        rw [hk] at hl
        exact absurd hl (lt_irrefl _)

/-- C2: the sort over container rows is stable — for the chosen dimension,
the rows of any one comparator-equivalence class (a fixed sort key: one
usage value, or the missing-sample class) appear in the output in their
input order; every pair the comparator treats as equal/incomparable is a
pair with equal keys, and with any other `sortByResource` value the list is
returned unchanged. -/
theorem c2_sort_stable (o : FreeOptions) (l : List podInfo) (k : WithBot Int) :
    (o.sortByResource = memorySortResource →
      (sortEntries o l).filter (fun x => decide (memKey x = k)) =
        l.filter (fun x => decide (memKey x = k)) ∧
      (∀ a b : podInfo,
        (memLess a b = false ∧ memLess b a = false) ↔ memKey a = memKey b)) ∧
    (o.sortByResource = cpuSortResource →
      (sortEntries o l).filter (fun x => decide (cpuKey x = k)) =
        l.filter (fun x => decide (cpuKey x = k)) ∧
      (∀ a b : podInfo,
        (cpuLess a b = false ∧ cpuLess b a = false) ↔ cpuKey a = cpuKey b)) ∧
    (o.sortByResource ≠ memorySortResource → o.sortByResource ≠ cpuSortResource →
      sortEntries o l = l) := by
  refine ⟨?_, ?_, ?_⟩
  · intro hs
    unfold sortEntries
    rw [if_pos hs]
    exact ⟨sortFunc_filter_key memKey memLess memLess_iff_key k l,
      memLess_incomparable_iff⟩
  · intro hs
    unfold sortEntries
    rw [if_neg (by rw [hs]; decide), if_pos hs]
    exact ⟨sortFunc_filter_key cpuKey cpuLess cpuLess_iff_key k l,
      cpuLess_incomparable_iff⟩
  · intro h1 h2
    unfold sortEntries
    rw [if_neg h1, if_neg h2]

/-- Two rows with the same memory usage value but different identities. -/
def equalRowA : podInfo :=
  { podName := "a", containerMemoryUsed := some ⟨5, "5"⟩ }

/-- Second row of the equal-memory pair. -/
def equalRowB : podInfo :=
  { podName := "b", containerMemoryUsed := some ⟨5, "5"⟩ }

/-- Witness for C2: the two rows with equal memory usage keep their input
order through the sort. -/
theorem c2_witness :
    (sortEntries {} [equalRowA, missingRow, equalRowB]).filter
        (fun x => decide (memKey x = ((5 : Int) : WithBot Int))) =
      [equalRowA, missingRow, equalRowB].filter
        (fun x => decide (memKey x = ((5 : Int) : WithBot Int))) :=
  ((c2_sort_stable {} [equalRowA, missingRow, equalRowB] ((5 : Int) : WithBot Int)).1 rfl).1

/-! ### Claim C10 -/

/-- The block of printed rows contributed by one node in the node loop of
`showPodsOnNode`: that node's container rows, sorted only when metrics are
enabled, each rendered and joined. A node whose pod listing failed
contributes nothing (the loop aborts there). -/
def nodeBlock (o : FreeOptions) (podMetrics : Option (List containerMetric))
    (n : node) : List String :=
  match n.pods with
  | Except.error _ => []
  | Except.ok pods =>
    ((if o.noMetrics then nodePodsOf o podMetrics n.name pods
      else sortEntries o (nodePodsOf o podMetrics n.name pods)).map
      (fun r => joinTab (podInfoToRow o r)))

/-- Folding `AddRow` over a list of rows appends their rendered forms. -/
theorem foldl_addRow_rows (o : FreeOptions) (rows : List podInfo) :
    ∀ t : OutputTable,
      (rows.foldl (fun t2 r => t2.AddRow (podInfoToRow o r)) t).Rows =
        t.Rows ++ rows.map (fun r => joinTab (podInfoToRow o r)) := by
  induction rows with
  | nil => intro t; simp
  | cons r rows ih =>
    intro t
    rw [List.foldl_cons, ih, List.map_cons]
    simp [OutputTable.AddRow, List.append_assoc]

/-- The node loop emits the nodes' blocks in node order. -/
theorem showPodsLoop_rows (o : FreeOptions) (pm : Option (List containerMetric)) :
    ∀ (nodes : List node) (t t' : OutputTable),
      showPodsLoop o pm nodes t = Except.ok t' →
      t'.Rows = t.Rows ++ (nodes.map (nodeBlock o pm)).flatten := by
  intro nodes
  induction nodes with
  | nil =>
    intro t t' h
    have ht : t = t' := by
      simpa [showPodsLoop] using h
    rw [← ht]
    simp
  | cons n ns ih =>
    intro t t' h
    rw [showPodsLoop] at h
    cases hp : n.pods with
    | error e => rw [hp] at h; exact absurd h (by simp)
    | ok pods =>
      rw [hp] at h
      have := ih _ _ h
      rw [this, foldl_addRow_rows, List.map_cons, List.flatten_cons, nodeBlock, hp]
      by_cases hnm : o.noMetrics = true <;>
        simp [hnm, List.append_assoc]

/-- C10: in list mode the printed rows are grouped by node — the table holds
the concatenation, in node-list order, of each node's block, where a block
is that node's container rows (sorted per node, only when metrics are
enabled) rendered in order; sorting is per node, so rows of different nodes
never interleave, and with metrics disabled a block keeps construction
order. -/
theorem c10_rows_grouped_by_node (o : FreeOptions)
    (pm : Option (List containerMetric)) (nodes : List node) (t' : OutputTable)
    (hrun : showPodsOnNode o pm nodes = Except.ok t') :
    t'.Rows = o.table.Rows ++
      (nodes.map (nodeBlock o
        (if o.noMetrics = false ∧ o.metricsPodClientPresent then pm else none))).flatten ∧
    (∀ (pmAny : Option (List containerMetric)) (n : node) (pods : List pod),
      n.pods = Except.ok pods → o.noMetrics = true →
      nodeBlock o pmAny n =
        (nodePodsOf o pmAny n.name pods).map (fun r => joinTab (podInfoToRow o r))) := by
  constructor
  · unfold showPodsOnNode at hrun
    have h := showPodsLoop_rows o _ nodes _ t' hrun
    rw [h]
    by_cases hh : o.noHeaders = true <;> simp [hh]
  · intro pmAny n pods hp hnm
    rw [nodeBlock, hp]
    simp [hnm]

/-- First witness container for C10. -/
def wContainer1 : container := { name := "c1", cpuRequested := 100 }

/-- Second witness container for C10. -/
def wContainer2 : container := { name := "c2", cpuRequested := 200 }

/-- First witness pod for C10. -/
def wPod1 : pod :=
  { name := "pod1", namespaceName := "default", ip := "10.0.0.1", phase := "Running",
    ageIfKnown := "1d", containers := [wContainer1] }

/-- Second witness pod for C10. -/
def wPod2 : pod :=
  { name := "pod2", namespaceName := "default", ip := "10.0.0.2", phase := "Running",
    ageIfKnown := "2d", containers := [wContainer2] }

/-- First witness node for C10. -/
def wNode1 : node := { name := "n1", pods := Except.ok [wPod1] }

/-- Second witness node for C10. -/
def wNode2 : node := { name := "n2", pods := Except.ok [wPod2] }

/-- Witness for C10: two nodes with one container each, metrics disabled; the
printed rows are exactly the two per-node blocks in node-list order. -/
theorem c10_witness :
    (OutputTable.mk [] ["n1\tdefault\tpod1\tRunning\tc1",
        "n2\tdefault\tpod2\tRunning\tc2"]).Rows =
      ({ noMetrics := true } : FreeOptions).table.Rows ++
        (([wNode1, wNode2]).map (nodeBlock { noMetrics := true }
          (if ({ noMetrics := true } : FreeOptions).noMetrics = false ∧
              ({ noMetrics := true } : FreeOptions).metricsPodClientPresent
            then none else none))).flatten :=
  (c10_rows_grouped_by_node { noMetrics := true } none [wNode1, wNode2]
    (OutputTable.mk [] ["n1\tdefault\tpod1\tRunning\tc1",
      "n2\tdefault\tpod2\tRunning\tc2"]) rfl).1

/-- Witness for C9 at amount 0: the dash is produced. -/
theorem c9_witness : toUnitOrDash {} 0 = "-" ↔ (0 : Int) = 0 :=
  (c9_dash_iff_zero {} 0).1
